import Mathlib

/-!
Shallow embedding of the page-generation pipeline of `src/generator.py`
(placeholder renderer, snippet filter/aggregator, page assembler,
configuration loader, orchestrator), together with theorems settling the
specification claims about it.

Python strings are modelled as Lean `String` (often via their `List Char`
data), database rows as association lists from field names to scalar-or-null
values, and fallible steps as `Except GenerationError`.  Scanning functions
(`re.sub`, `str.replace`, `in`) are written with explicit fuel so that they
are structurally recursive and kernel-computable.
-/

namespace Generator

/-- Scalar-or-null value stored in a database row: string, integer, or SQL
NULL (Python `None`). -/
inductive Value where
  | s (v : String)
  | i (v : Int)
  | null
deriving DecidableEq

/-- Python `str(v)` on a (non-null) scalar value. -/
def Value.str : Value → String
  | .s v => v
  | .i v => toString v
  | .null => "None"

/-- A database row: a flat mapping from field names to scalar-or-null
values, modelled as an association list with distinct keys looked up
front-to-back. -/
abbrev Record := List (String × Value)

/-- Python `dict.get`: the value at a key, or `none` when the key is absent. -/
def Record.get : Record → String → Option Value
  | [], _ => none
  | (k, v) :: rest, field => if k = field then some v else Record.get rest field

/-- Character class `[a-zA-Z0-9_]` of `PLACEHOLDER_PATTERN` (ASCII letters,
digits, underscore). -/
def isWordChar (c : Char) : Bool :=
  c.isAlpha || c.isDigit || c == '_'

/-- Longest run of word characters at the head of the list, paired with the
remainder (the regex engine's greedy `[a-zA-Z0-9_]+` consumption). -/
def takeWord : List Char → List Char × List Char
  | [] => ([], [])
  | c :: cs =>
    if isWordChar c then
      let r := takeWord cs
      (c :: r.1, r.2)
    else ([], c :: cs)

/-- Check the tail after the greedily consumed identifier `w`: the match
succeeds when `w` is nonempty and the closing `%%` follows. -/
def matchTail (w : List Char) : List Char → Option (List Char × List Char)
  | d1 :: d2 :: rest2 =>
    if w ≠ [] ∧ d1 = '%' ∧ d2 = '%' then some (w, rest2) else none
  | _ => none

/-- Attempt to match `%%([a-zA-Z0-9_]+)%%` at the head of the list; on
success return the captured identifier and the remainder after the match.
Backtracking cannot help here (word characters are never `%`), so greedy
matching is exact. -/
def matchAt : List Char → Option (List Char × List Char)
  | c1 :: c2 :: rest =>
    if c1 = '%' ∧ c2 = '%' then matchTail (takeWord rest).1 (takeWord rest).2
    else none
  | _ => none

/-- One left-to-right pass of `PLACEHOLDER_PATTERN.sub(f, _)`: at each
position, replace a match of `%%identifier%%` by `f identifier` (never
re-scanning the replacement) or copy one character.  Structural recursion on
a fuel argument; `fuel ≥ length` suffices. -/
def pySubF (f : String → String) : Nat → List Char → List Char
  | 0, l => l
  | _, [] => []
  | fuel + 1, c :: cs =>
    match matchAt (c :: cs) with
    | some (w, rest) => (f (String.mk w)).data ++ pySubF f fuel rest
    | none => c :: pySubF f fuel cs

/-- Substitution `PLACEHOLDER_PATTERN.sub(f, s)` over a character list. -/
def pySub (f : String → String) (l : List Char) : List Char :=
  pySubF f l.length l

/-- The `replace` callback inside `render_snippet`: look the captured field
up in the row; absent key or null value yields the empty string, otherwise
the value's string form. -/
def replaceField (data : Record) (field : String) : String :=
  match Record.get data field with
  | none => ""
  | some Value.null => ""
  | some v => Value.str v

/-- Embedding of `render_snippet`: substitute every `%%field%%` token of the
template using `replaceField` on the row. -/
def render_snippet (snippet_template : String) (data : Record) : String :=
  String.mk (pySub (replaceField data) snippet_template.data)

/-- An identifier the placeholder pattern can capture: nonempty and made of
word characters only. -/
def isIdent (k : String) : Bool :=
  !k.data.isEmpty && k.data.all isWordChar

theorem takeWord_append (l : List Char) : (takeWord l).1 ++ (takeWord l).2 = l := by
  induction l with
  | nil => rfl
  | cons c cs ih =>
    simp only [takeWord]
    by_cases h : isWordChar c = true
    · simp [h, ih]
    · simp [h]

theorem takeWord_of_words (k : List Char) (x : Char) (r : List Char)
    (hk : ∀ c ∈ k, isWordChar c = true) (hx : isWordChar x = false) :
    takeWord (k ++ x :: r) = (k, x :: r) := by
  induction k with
  | nil => simp [takeWord, hx]
  | cons c cs ih =>
    have hc : isWordChar c = true := hk c (by simp)
    simp only [List.cons_append, takeWord, hc, if_true]
    have := ih (fun d hd => hk d (by simp [hd]))
    simp [this]

theorem matchTail_inv (w r w2 rest : List Char) (h : matchTail w r = some (w2, rest)) :
    w2 = w ∧ w ≠ [] ∧ r = '%' :: '%' :: rest := by
  cases r with
  | nil => cases h
  | cons d1 r1 =>
    cases r1 with
    | nil => cases h
    | cons d2 rest2 =>
      have hdef : matchTail w (d1 :: d2 :: rest2) =
          if w ≠ [] ∧ d1 = '%' ∧ d2 = '%' then some (w, rest2) else none := rfl
      rw [hdef] at h
      by_cases hc : w ≠ [] ∧ d1 = '%' ∧ d2 = '%'
      · rw [if_pos hc] at h
        injection h with h
        injection h with h1 h2
        obtain ⟨hw, hd1, hd2⟩ := hc
        subst hd1; subst hd2; subst h1; subst h2
        exact ⟨rfl, hw, rfl⟩
      · rw [if_neg hc] at h
        cases h

theorem matchAt_inv (l w rest : List Char) (h : matchAt l = some (w, rest)) :
    l = '%' :: '%' :: (w ++ '%' :: '%' :: rest) ∧ w ≠ [] := by
  cases l with
  | nil => cases h
  | cons c1 l1 =>
    cases l1 with
    | nil => cases h
    | cons c2 rest0 =>
      have hdef : matchAt (c1 :: c2 :: rest0) =
          if c1 = '%' ∧ c2 = '%' then matchTail (takeWord rest0).1 (takeWord rest0).2
          else none := rfl
      rw [hdef] at h
      by_cases hc : c1 = '%' ∧ c2 = '%'
      · rw [if_pos hc] at h
        obtain ⟨h1, h2, h3⟩ := matchTail_inv _ _ _ _ h
        obtain ⟨hc1, hc2⟩ := hc
        subst hc1; subst hc2; subst h1
        have hwr := takeWord_append rest0
        rw [h3] at hwr
        exact ⟨congrArg (fun t => '%' :: '%' :: t) hwr.symm, h2⟩
      · rw [if_neg hc] at h
        cases h

theorem matchAt_some_length (l w rest : List Char) (h : matchAt l = some (w, rest)) :
    rest.length + 3 ≤ l.length := by
  obtain ⟨hl, hw⟩ := matchAt_inv l w rest h
  subst hl
  have : 1 ≤ w.length := by
    cases w with
    | nil => exact absurd rfl hw
    | cons _ _ => simp
  simp [List.length_append]
  omega

theorem matchAt_ne_pct (c : Char) (cs : List Char) (h : c ≠ '%') :
    matchAt (c :: cs) = none := by
  rcases hm : matchAt (c :: cs) with _ | ⟨w, rest⟩
  · rfl
  · obtain ⟨hl, _⟩ := matchAt_inv _ _ _ hm
    injection hl with h1 _
    exact absurd h1 h

theorem matchAt_token (k b : List Char) (hk : k ≠ []) (hw : ∀ c ∈ k, isWordChar c = true) :
    matchAt ('%' :: '%' :: (k ++ '%' :: '%' :: b)) = some (k, b) := by
  have hpct : isWordChar '%' = false := by decide
  have ht := takeWord_of_words k '%' ('%' :: b) hw hpct
  have hdef : matchAt ('%' :: '%' :: (k ++ '%' :: '%' :: b)) =
      if ('%' : Char) = '%' ∧ ('%' : Char) = '%' then
        matchTail (takeWord (k ++ '%' :: '%' :: b)).1 (takeWord (k ++ '%' :: '%' :: b)).2
      else none := rfl
  rw [hdef, if_pos ⟨rfl, rfl⟩, ht]
  have hdef2 : matchTail k ('%' :: '%' :: b) =
      if k ≠ [] ∧ ('%' : Char) = '%' ∧ ('%' : Char) = '%' then some (k, b) else none := rfl
  rw [hdef2, if_pos ⟨hk, rfl, rfl⟩]

theorem pySubF_fuel (f : String → String) (f1 f2 : Nat) (l : List Char)
    (h1 : l.length ≤ f1) (h2 : l.length ≤ f2) :
    pySubF f f1 l = pySubF f f2 l := by
  induction f1 generalizing f2 l with
  | zero =>
    have : l = [] := List.length_eq_zero.mp (Nat.le_zero.mp h1)
    subst this
    cases f2 <;> rfl
  | succ f1 ih =>
    cases l with
    | nil => cases f2 <;> rfl
    | cons c cs =>
      cases f2 with
      | zero => simp at h2
      | succ f2 =>
        simp only [pySubF]
        rcases hm : matchAt (c :: cs) with _ | ⟨w, rest⟩
        · show c :: pySubF f f1 cs = c :: pySubF f f2 cs
          have hcs : cs.length ≤ f1 := by simp at h1; omega
          have hcs2 : cs.length ≤ f2 := by simp at h2; omega
          rw [ih f2 cs hcs hcs2]
        · show (f (String.mk w)).data ++ pySubF f f1 rest =
            (f (String.mk w)).data ++ pySubF f f2 rest
          have hr := matchAt_some_length _ _ _ hm
          have hr1 : rest.length ≤ f1 := by simp at h1 hr; omega
          have hr2 : rest.length ≤ f2 := by simp at h2 hr; omega
          rw [ih f2 rest hr1 hr2]

theorem pySub_nil (f : String → String) : pySub f [] = [] := rfl

theorem pySub_cons_nomatch (f : String → String) (c : Char) (cs : List Char)
    (h : matchAt (c :: cs) = none) : pySub f (c :: cs) = c :: pySub f cs := by
  unfold pySub
  simp only [List.length_cons, pySubF, h]

theorem pySub_cons_match (f : String → String) (c : Char) (cs w rest : List Char)
    (h : matchAt (c :: cs) = some (w, rest)) :
    pySub f (c :: cs) = (f (String.mk w)).data ++ pySub f rest := by
  unfold pySub
  simp only [List.length_cons, pySubF, h]
  have hr := matchAt_some_length _ _ _ h
  simp only [List.length_cons] at hr
  rw [pySubF_fuel f cs.length rest.length rest (by omega) (le_refl _)]

theorem pySub_pass (f : String → String) (a l : List Char)
    (ha : ∀ c ∈ a, c ≠ '%') : pySub f (a ++ l) = a ++ pySub f l := by
  induction a with
  | nil => rfl
  | cons c cs ih =>
    have hc : c ≠ '%' := ha c (by simp)
    rw [List.cons_append, pySub_cons_nomatch f c (cs ++ l) (matchAt_ne_pct c _ hc),
      ih (fun d hd => ha d (by simp [hd])), List.cons_append]

theorem pySub_token (f : String → String) (k b : List Char)
    (hk : k ≠ []) (hw : ∀ c ∈ k, isWordChar c = true) :
    pySub f ('%' :: '%' :: (k ++ '%' :: '%' :: b)) =
      (f (String.mk k)).data ++ pySub f b := by
  exact pySub_cons_match f '%' ('%' :: (k ++ '%' :: '%' :: b)) k b
    (matchAt_token k b hk hw)

/-- Decide whether any position of the list starts a `%%identifier%%` match
(the template contains a token). -/
def hasTokenL : List Char → Bool
  | [] => false
  | c :: cs => (matchAt (c :: cs)).isSome || hasTokenL cs

theorem pySub_of_no_token (f : String → String) (l : List Char)
    (h : hasTokenL l = false) : pySub f l = l := by
  induction l with
  | nil => rfl
  | cons c cs ih =>
    have h2 : (matchAt (c :: cs)).isSome = false ∧ hasTokenL cs = false :=
      Bool.or_eq_false_iff.mp h
    have hm : matchAt (c :: cs) = none := Option.not_isSome_iff_eq_none.mp (by simp [h2.1])
    rw [pySub_cons_nomatch f c cs hm, ih h2.2]

theorem string_mk_data (s : String) : String.mk s.data = s := rfl

theorem string_mk_append (l1 l2 : List Char) :
    String.mk (l1 ++ l2) = String.mk l1 ++ String.mk l2 := rfl

theorem isIdent_parts (k : String) (h : isIdent k = true) :
    k.data ≠ [] ∧ ∀ c ∈ k.data, isWordChar c = true := by
  unfold isIdent at h
  simp only [Bool.and_eq_true, Bool.not_eq_true', List.all_eq_true] at h
  refine ⟨?_, fun c hc => h.2 c hc⟩
  intro he
  rw [he] at h
  simp at h

/-- Core rendering fact: a template of the shape `a ++ "%%k%%" ++ b`, with
`a` free of percent signs and `k` an identifier, renders to `a`, then the
field substitution for `k`, then the rendering of `b`. -/
theorem render_token (a b k : String) (R : Record) (hk : isIdent k = true)
    (ha : ∀ c ∈ a.data, c ≠ '%') :
    render_snippet (a ++ "%%" ++ k ++ "%%" ++ b) R =
      a ++ replaceField R k ++ render_snippet b R := by
  obtain ⟨hne, hw⟩ := isIdent_parts k hk
  unfold render_snippet
  have hdata : (a ++ "%%" ++ k ++ "%%" ++ b).data =
      a.data ++ '%' :: '%' :: (k.data ++ '%' :: '%' :: b.data) := by
    simp [String.data_append]
  rw [hdata, pySub_pass _ _ _ ha, pySub_token _ _ _ hne hw, string_mk_data,
    ← List.append_assoc, string_mk_append, string_mk_append, string_mk_data]

theorem render_single_token (R : Record) (k : String) (hk : isIdent k = true) :
    render_snippet ("%%" ++ k ++ "%%") R = replaceField R k := by
  have h0 := render_token "" "" k R hk (fun c hc => nomatch hc)
  have e1 : ("" : String) ++ "%%" ++ k ++ "%%" ++ "" = "%%" ++ k ++ "%%" := by simp
  have e2 : render_snippet "" R = "" := rfl
  rw [e1, e2] at h0
  simpa using h0

/-- C1: for an identifier `k`, `render` replaces the token `%%k%%` by the
string form of the record's value at `k` when that key is present with a
non-null value, and by the empty string when the key is absent or its value
is null. -/
theorem claim_C1_render_placeholder (R : Record) (k : String) (hk : isIdent k = true) :
    (∀ v, R.get k = some v → v ≠ Value.null →
      render_snippet ("%%" ++ k ++ "%%") R = Value.str v) ∧
    ((R.get k = none ∨ R.get k = some Value.null) →
      render_snippet ("%%" ++ k ++ "%%") R = "") := by
  have h0 := render_single_token R k hk
  constructor
  · intro v hv hnull
    rw [h0]
    unfold replaceField
    rw [hv]
    cases v with
    | s w => rfl
    | i n => rfl
    | null => exact absurd rfl hnull
  · intro h
    rw [h0]
    unfold replaceField
    rcases h with h | h <;> rw [h]

/-- Witness for C1: a present integer value renders to its decimal string,
an absent key and a null value both render to the empty string. -/
theorem claim_C1_render_placeholder_witness :
    render_snippet ("%%" ++ "k" ++ "%%") [("k", Value.i 5)] = "5" ∧
    render_snippet ("%%" ++ "k" ++ "%%") ([] : Record) = "" ∧
    render_snippet ("%%" ++ "k" ++ "%%") [("k", Value.null)] = "" := by
  refine ⟨?_, ?_, ?_⟩
  · exact ((claim_C1_render_placeholder [("k", Value.i 5)] "k" (by decide)).1
      (Value.i 5) (by decide) (by decide)).trans (by decide)
  · exact (claim_C1_render_placeholder [] "k" (by decide)).2 (Or.inl (by decide))
  · exact (claim_C1_render_placeholder [("k", Value.null)] "k" (by decide)).2
      (Or.inr (by decide))

/-- C6: rendering is one left-to-right pass with no recursive substitution:
a template with no `%%identifier%%` token passes through unchanged, and a
substituted value is emitted verbatim even when it itself spells a token. -/
theorem claim_C6_single_pass :
    (∀ (t : String) (R : Record), hasTokenL t.data = false → render_snippet t R = t) ∧
    (∀ (R : Record) (k v : String), isIdent k = true → R.get k = some (Value.s v) →
      render_snippet ("%%" ++ k ++ "%%") R = v) := by
  constructor
  · intro t R h
    unfold render_snippet
    rw [pySub_of_no_token _ _ h, string_mk_data]
  · intro R k v hk hv
    rw [render_single_token R k hk]
    unfold replaceField
    rw [hv]
    rfl

/-- Witness for C6: a token-free template is returned unchanged, and a value
that spells `%%b%%` appears verbatim in the output instead of being
substituted again. -/
theorem claim_C6_single_pass_witness :
    render_snippet "<p>50% x</p>" [("a", Value.s "y")] = "<p>50% x</p>" ∧
    render_snippet ("%%" ++ "a" ++ "%%") [("a", Value.s "%%b%%"), ("b", Value.s "X")] =
      "%%b%%" := by
  refine ⟨?_, ?_⟩
  · exact claim_C6_single_pass.1 "<p>50% x</p>" [("a", Value.s "y")] (by decide)
  · exact claim_C6_single_pass.2 [("a", Value.s "%%b%%"), ("b", Value.s "X")] "a" "%%b%%"
      (by decide) (by decide)

/-- Accumulate the value of a run of decimal digits in which a single
underscore may stand between two digits (Python integer-literal grouping);
anything else rejects the whole parse. -/
def digitsVal : List Char → Nat → Option Nat
  | [], acc => some acc
  | '_' :: c :: rest, acc =>
    if c.isDigit then digitsVal rest (acc * 10 + (c.toNat - 48)) else none
  | c :: rest, acc => if c.isDigit then digitsVal rest (acc * 10 + (c.toNat - 48)) else none

/-- Parse a nonempty digit run (first character must be a digit; underscores
allowed between digits afterwards). -/
def parseDigits1 : List Char → Option Nat
  | c :: rest => if c.isDigit then digitsVal rest (c.toNat - 48) else none
  | [] => none

/-- Strip whitespace from both ends (the implicit strip of Python `int`). -/
def pyStrip (l : List Char) : List Char :=
  ((l.dropWhile Char.isWhitespace).reverse.dropWhile Char.isWhitespace).reverse

/-- Python `int(s)` on a string: optional surrounding whitespace, optional
sign, then a nonempty ASCII digit run (with underscore grouping); `none`
models the `ValueError` raised on anything else. -/
def pyIntOfString (s : String) : Option Int :=
  match pyStrip s.data with
  | '+' :: rest => (parseDigits1 rest).map (fun n => (n : Int))
  | '-' :: rest => (parseDigits1 rest).map (fun n => -(n : Int))
  | rest => (parseDigits1 rest).map (fun n => (n : Int))

/-- Python `int(v)` on a scalar-or-null value: an integer is returned as is,
a string is parsed, and `None` raises `TypeError` (modelled as `none`). -/
def pyIntOfValue : Value → Option Int
  | .i n => some n
  | .s s => pyIntOfString s
  | .null => none

/-- Embedding of `_is_snippet_active`: the row must have an `active` key
whose value converts to a nonzero integer; conversion failures
(`TypeError`/`ValueError`) yield `false` instead of propagating. -/
def _is_snippet_active (snippet : Record) : Bool :=
  match snippet.get "active" with
  | none => false
  | some v =>
    match pyIntOfValue v with
    | none => false
    | some n => n != 0

/-- C2: a snippet is active iff its `active` key exists and its value
converts to a nonzero integer; absent keys, null values and non-numeric
strings are inactive without error, and the spec's six concrete cases
evaluate as stated. -/
theorem claim_C2_active_flag :
    (∀ R : Record, _is_snippet_active R = true ↔
      ∃ v n, R.get "active" = some v ∧ pyIntOfValue v = some n ∧ n ≠ 0) ∧
    _is_snippet_active [("active", Value.i 1)] = true ∧
    _is_snippet_active [("active", Value.s "2")] = true ∧
    _is_snippet_active [("active", Value.i 0)] = false ∧
    _is_snippet_active [("active", Value.s "0")] = false ∧
    _is_snippet_active [("other", Value.i 1)] = false ∧
    _is_snippet_active [("active", Value.s "yes")] = false ∧
    _is_snippet_active [("active", Value.null)] = false := by
  refine ⟨?_, by decide, by decide, by decide, by decide, by decide, by decide, by decide⟩
  intro R
  unfold _is_snippet_active
  rcases hg : R.get "active" with _ | v
  · simp
  · rcases hp : pyIntOfValue v with _ | n
    · simp [hp]
    · simp [hp]

/-- The loop body of `render_snippets`: collect the rendering of each active
snippet in order, skipping inactive ones. -/
def render_snippets_list (snippet_template : String) : List Record → List String
  | [] => []
  | s :: rest =>
    if _is_snippet_active s then
      render_snippet snippet_template s :: render_snippets_list snippet_template rest
    else render_snippets_list snippet_template rest

/-- Embedding of `render_snippets`: render the active snippets and join them
with single newlines (Python `"\n".join`). -/
def render_snippets (snippet_template : String) (snippets : List Record) : String :=
  String.intercalate "\n" (render_snippets_list snippet_template snippets)

theorem render_snippets_list_eq (t : String) (snips : List Record) :
    render_snippets_list t snips = (snips.filter _is_snippet_active).map (render_snippet t) := by
  induction snips with
  | nil => rfl
  | cons s rest ih =>
    simp only [render_snippets_list, List.filter_cons]
    by_cases h : _is_snippet_active s = true
    · simp [h, ih]
    · simp only [Bool.not_eq_true] at h
      simp [h, ih]

/-- C3: aggregation renders exactly the active records in input order and
joins them with single newlines; with no active record (in particular the
empty sequence) the result is the empty string. -/
theorem claim_C3_aggregate (t : String) (snips : List Record) :
    render_snippets t [] = "" ∧
    render_snippets t snips =
      String.intercalate "\n" ((snips.filter _is_snippet_active).map (render_snippet t)) ∧
    (snips.filter _is_snippet_active = [] → render_snippets t snips = "") := by
  refine ⟨rfl, ?_, ?_⟩
  · unfold render_snippets
    rw [render_snippets_list_eq]
  · intro h
    unfold render_snippets
    rw [render_snippets_list_eq, h]
    rfl

/-- Witness for C3: a sequence whose only record is inactive aggregates to
the empty string. -/
theorem claim_C3_aggregate_witness :
    render_snippets "y" [[("active", Value.i 0)]] = "" :=
  (claim_C3_aggregate "y" [[("active", Value.i 0)]]).2.2 (by decide)

/-- The sentinel marker that must appear in every skeleton template. -/
def PLACEHOLDER_MARKER : String := "--- INSERT SNIPPETS HERE ---"

/-- Failure modes of the generation pipeline: the error taxonomy carried by
the single `GenerationError` class, one constructor per raise site. -/
inductive GenerationError where
  | configMissing (missing : List String)
  | configInvalid (port : String)
  | templateNotFound (path : String)
  | pageNotFound (page : String)
  | missingPageId
  | missingMarker
deriving DecidableEq

/-- Does `hay` begin with `needle`? -/
def startsWithL : List Char → List Char → Bool
  | [], _ => true
  | _ :: _, [] => false
  | c :: cs, d :: ds => c == d && startsWithL cs ds

/-- Python substring containment (`needle in hay`): some position of `hay`
begins with `needle`. -/
def containsSub (needle : List Char) : List Char → Bool
  | [] => startsWithL needle []
  | c :: cs => startsWithL needle (c :: cs) || containsSub needle cs

/-- One pass of Python `hay.replace(needle, repl)`: scan left to right,
replace each non-overlapping occurrence, and never re-scan a replacement.
Structural recursion on fuel; all uses have a nonempty needle and
`fuel ≥ length`. -/
def pyReplaceF (needle repl : List Char) : Nat → List Char → List Char
  | 0, l => l
  | _, [] => []
  | fuel + 1, c :: cs =>
    if needle ≠ [] ∧ startsWithL needle (c :: cs) = true then
      repl ++ pyReplaceF needle repl fuel ((c :: cs).drop needle.length)
    else c :: pyReplaceF needle repl fuel cs

/-- Python `hay.replace(needle, repl)` over character lists. -/
def pyReplace (needle repl l : List Char) : List Char :=
  pyReplaceF needle repl l.length l

/-- Embedding of `inject_snippets`: fail with the missing-marker error when
the skeleton does not contain the sentinel, otherwise replace every
occurrence of the sentinel by the rendered snippets. -/
def inject_snippets (skeleton rendered : String) : Except GenerationError String :=
  if containsSub PLACEHOLDER_MARKER.data skeleton.data then
    .ok (String.mk (pyReplace PLACEHOLDER_MARKER.data rendered.data skeleton.data))
  else .error .missingMarker

theorem startsWithL_iff (n h : List Char) :
    startsWithL n h = true ↔ ∃ t, h = n ++ t := by
  induction n generalizing h with
  | nil =>
    simp only [startsWithL, List.nil_append]
    exact ⟨fun _ => ⟨h, rfl⟩, fun _ => trivial⟩
  | cons c cs ih =>
    cases h with
    | nil => simp [startsWithL]
    | cons d ds =>
      simp only [startsWithL, Bool.and_eq_true, beq_iff_eq, ih, List.cons_append,
        List.cons.injEq]
      constructor
      · rintro ⟨rfl, t, rfl⟩
        exact ⟨t, rfl, rfl⟩
      · rintro ⟨t, rfl, rfl⟩
        exact ⟨rfl, t, rfl⟩

theorem containsSub_iff (needle hay : List Char) (hne : needle ≠ []) :
    containsSub needle hay = true ↔ ∃ a b, hay = a ++ needle ++ b := by
  induction hay with
  | nil =>
    cases needle with
    | nil => exact absurd rfl hne
    | cons c cs =>
      simp only [containsSub, startsWithL]
      constructor
      · intro h; cases h
      · rintro ⟨a, b, h⟩
        exact absurd h.symm (by simp)
  | cons d ds ih =>
    simp only [containsSub, Bool.or_eq_true, startsWithL_iff, ih]
    constructor
    · rintro (⟨t, ht⟩ | ⟨a, b, rfl⟩)
      · exact ⟨[], t, by simp [ht]⟩
      · exact ⟨d :: a, b, by simp⟩
    · rintro ⟨a, b, hab⟩
      cases a with
      | nil =>
        left
        exact ⟨b, by simpa using hab⟩
      | cons a0 as =>
        right
        refine ⟨as, b, ?_⟩
        have := hab
        simp only [List.cons_append] at this
        exact (List.cons.inj this).2

theorem containsSub_nil_hay (needle : List Char) (hne : needle ≠ []) :
    containsSub needle [] = false := by
  cases needle with
  | nil => exact absurd rfl hne
  | cons c cs => rfl

/-- Join a list of segments with a separator between consecutive segments
(the shape of a string after greedy split on a substring). -/
def joinSep (sep : List Char) : List (List Char) → List Char
  | [] => []
  | [p] => p
  | p :: q :: rest => p ++ sep ++ joinSep sep (q :: rest)

/-- Prepend a character to the first segment of a split. -/
def consHead (c : Char) : List (List Char) → List (List Char)
  | [] => [[c]]
  | p :: ps => (c :: p) :: ps

/-- Greedy left-to-right split of the list on occurrences of `needle`; the
scan mirrors `pyReplaceF`, so the replacement is the split rejoined with the
replacement text. -/
def pySplitF (needle : List Char) : Nat → List Char → List (List Char)
  | 0, l => [l]
  | _, [] => [[]]
  | fuel + 1, c :: cs =>
    if needle ≠ [] ∧ startsWithL needle (c :: cs) = true then
      [] :: pySplitF needle fuel ((c :: cs).drop needle.length)
    else consHead c (pySplitF needle fuel cs)

/-- Greedy split of `l` on occurrences of `needle`. -/
def pySplit (needle l : List Char) : List (List Char) :=
  pySplitF needle l.length l

theorem consHead_ne_nil (c : Char) (l : List (List Char)) : consHead c l ≠ [] := by
  cases l <;> simp [consHead]

theorem joinSep_cons_head (sep : List Char) (c : Char) (p : List Char)
    (ps : List (List Char)) :
    joinSep sep ((c :: p) :: ps) = c :: joinSep sep (p :: ps) := by
  cases ps with
  | nil => rfl
  | cons q rest => simp [joinSep]

theorem pySplitF_ne_nil (needle : List Char) (fuel : Nat) (l : List Char) :
    pySplitF needle fuel l ≠ [] := by
  cases fuel with
  | zero => simp [pySplitF]
  | succ fuel =>
    cases l with
    | nil => simp [pySplitF]
    | cons c cs =>
      simp only [pySplitF]
      by_cases h : needle ≠ [] ∧ startsWithL needle (c :: cs) = true
      · rw [if_pos h]; simp
      · rw [if_neg h]; exact consHead_ne_nil c _

theorem pyReplaceF_nil (needle repl : List Char) (fuel : Nat) :
    pyReplaceF needle repl fuel [] = [] := by
  cases fuel <;> rfl

theorem pySplitF_spec (needle repl : List Char) (hne : needle ≠ []) :
    ∀ fuel l, l.length ≤ fuel →
      joinSep needle (pySplitF needle fuel l) = l ∧
      pyReplaceF needle repl fuel l = joinSep repl (pySplitF needle fuel l) ∧
      (∀ p ps, pySplitF needle fuel l = p :: ps → ∃ t, p ++ t = l) ∧
      (∀ p ∈ pySplitF needle fuel l, containsSub needle p = false) ∧
      (containsSub needle l = true → 2 ≤ (pySplitF needle fuel l).length) := by
  intro fuel
  induction fuel with
  | zero =>
    intro l hl
    have hl0 : l = [] := List.length_eq_zero.mp (Nat.le_zero.mp hl)
    subst hl0
    refine ⟨rfl, rfl, ?_, ?_, ?_⟩
    · intro p ps h
      injection h with h1 h2
      exact ⟨[], by simp [← h1]⟩
    · intro p hp
      simp only [pySplitF, List.mem_singleton] at hp
      rw [hp]
      exact containsSub_nil_hay needle hne
    · intro hc
      rw [containsSub_nil_hay needle hne] at hc
      cases hc
  | succ fuel ih =>
    intro l hl
    cases l with
    | nil =>
      refine ⟨rfl, rfl, ?_, ?_, ?_⟩
      · intro p ps h
        injection h with h1 h2
        exact ⟨[], by simp [← h1]⟩
      · intro p hp
        simp only [pySplitF, List.mem_singleton] at hp
        rw [hp]
        exact containsSub_nil_hay needle hne
      · intro hc
        rw [containsSub_nil_hay needle hne] at hc
        cases hc
    | cons c cs =>
      have hcs : cs.length ≤ fuel := by simp at hl; omega
      simp only [pySplitF, pyReplaceF]
      by_cases hg : needle ≠ [] ∧ startsWithL needle (c :: cs) = true
      · rw [if_pos hg, if_pos hg]
        obtain ⟨t, hct⟩ := (startsWithL_iff _ _).mp hg.2
        have hdrop : (c :: cs).drop needle.length = t := by
          rw [hct]
          exact List.drop_left _ _
        have hlt : t.length ≤ fuel := by
          have : (c :: cs).length = needle.length + t.length := by rw [hct]; simp
          have hn1 : 1 ≤ needle.length := by
            cases needle with
            | nil => exact absurd rfl hne
            | cons _ _ => simp
          simp only [List.length_cons] at this
          omega
        obtain ⟨ih1, ih2, ih3, ih4, ih5⟩ := ih t hlt
        rw [hdrop]
        rcases hsp : pySplitF needle fuel t with _ | ⟨q, qs⟩
        · exact absurd hsp (pySplitF_ne_nil needle fuel t)
        · rw [hsp] at ih1 ih2 ih4
          refine ⟨?_, ?_, ?_, ?_, ?_⟩
          · show joinSep needle ([] :: q :: qs) = c :: cs
            simp only [joinSep, List.nil_append]
            rw [ih1, ← hct]
          · show repl ++ pyReplaceF needle repl fuel t = joinSep repl ([] :: q :: qs)
            simp only [joinSep, List.nil_append]
            rw [ih2]
          · intro p ps h
            injection h with h1 h2
            exact ⟨c :: cs, by simp [← h1]⟩
          · intro p hp
            rcases List.mem_cons.mp hp with h0 | h0
            · rw [h0]
              exact containsSub_nil_hay needle hne
            · exact ih4 p h0
          · intro _
            simp
      · rw [if_neg hg, if_neg hg]
        obtain ⟨ih1, ih2, ih3, ih4, ih5⟩ := ih cs hcs
        have hsw : startsWithL needle (c :: cs) = false := by
          rcases Decidable.not_and_iff_or_not.mp hg with h0 | h0
          · exact absurd hne h0
          · exact Bool.not_eq_true _ ▸ eq_false_of_ne_true h0
        rcases hsp : pySplitF needle fuel cs with _ | ⟨p, ps⟩
        · exact absurd hsp (pySplitF_ne_nil needle fuel cs)
        · rw [hsp] at ih1 ih2 ih4 ih5
          have hpre := ih3 p ps hsp
          simp only [consHead]
          refine ⟨?_, ?_, ?_, ?_, ?_⟩
          · rw [joinSep_cons_head, ih1]
          · rw [joinSep_cons_head, ← ih2]
          · intro p2 ps2 h
            injection h with h1 h2
            obtain ⟨t, ht⟩ := hpre
            exact ⟨t, by rw [← h1]; simp [ht]⟩
          · intro q hq
            rcases List.mem_cons.mp hq with h0 | h0
            · rw [h0]
              simp only [containsSub, Bool.or_eq_false_iff]
              constructor
              · rcases hsw2 : startsWithL needle (c :: p) with _ | _
                · rfl
                · obtain ⟨u, hu⟩ := (startsWithL_iff _ _).mp hsw2
                  obtain ⟨t, ht⟩ := hpre
                  have : c :: cs = needle ++ (u ++ t) := by
                    rw [← ht, ← List.cons_append, hu, List.append_assoc]
                  have : startsWithL needle (c :: cs) = true :=
                    (startsWithL_iff _ _).mpr ⟨u ++ t, this⟩
                  rw [this] at hsw
                  cases hsw
              · exact ih4 p (List.mem_cons_self _ _)
            · exact ih4 q (List.mem_cons.mpr (Or.inr h0))
          · intro hc
            simp only [containsSub, hsw, Bool.false_or] at hc
            have := ih5 hc
            simp only [List.length_cons] at this ⊢
            omega

theorem pySplit_spec (needle repl l : List Char) (hne : needle ≠ []) :
    joinSep needle (pySplit needle l) = l ∧
    pyReplace needle repl l = joinSep repl (pySplit needle l) ∧
    (∀ p ps, pySplit needle l = p :: ps → ∃ t, p ++ t = l) ∧
    (∀ p ∈ pySplit needle l, containsSub needle p = false) ∧
    (containsSub needle l = true → 2 ≤ (pySplit needle l).length) :=
  pySplitF_spec needle repl hne l.length l (le_refl _)

theorem startsWithL_refl (l : List Char) : startsWithL l l = true :=
  (startsWithL_iff l l).mpr ⟨[], by simp⟩

theorem pyReplace_self (needle repl : List Char) (hne : needle ≠ []) :
    pyReplace needle repl needle = repl := by
  cases needle with
  | cons c cs =>
    show pyReplaceF (c :: cs) repl (c :: cs).length (c :: cs) = repl
    simp only [List.length_cons, pyReplaceF]
    rw [if_pos ⟨hne, startsWithL_refl (c :: cs)⟩]
    have hd : (c :: cs).drop (c :: cs).length = [] := List.drop_length _
    simp only [List.length_cons] at hd
    rw [hd, pyReplaceF_nil]
    exact List.append_nil repl
  | nil => exact absurd rfl hne

/-- C4: `inject_snippets` raises the missing-marker `GenerationError` if and
only if the skeleton has no decomposition around the literal sentinel
`--- INSERT SNIPPETS HERE ---`, whatever the aggregated content is. -/
theorem claim_C4_missing_marker (skeleton rendered : String) :
    inject_snippets skeleton rendered = Except.error GenerationError.missingMarker ↔
      ¬ ∃ a b : String, skeleton = a ++ PLACEHOLDER_MARKER ++ b := by
  have hne : PLACEHOLDER_MARKER.data ≠ [] := by decide
  unfold inject_snippets
  by_cases hc : containsSub PLACEHOLDER_MARKER.data skeleton.data = true
  · rw [if_pos hc]
    constructor
    · intro h
      cases h
    · intro hnex
      exfalso
      obtain ⟨a, b, hab⟩ := (containsSub_iff _ _ hne).mp hc
      refine hnex ⟨String.mk a, String.mk b, ?_⟩
      rw [← string_mk_data skeleton, hab, string_mk_append, string_mk_append,
        string_mk_data]
  · rw [if_neg hc]
    constructor
    · rintro _ ⟨a, b, rfl⟩
      refine hc ((containsSub_iff _ _ hne).mpr ⟨a.data, b.data, ?_⟩)
      simp [String.data_append]
    · intro _
      rfl

/-- C5: when the skeleton contains the sentinel, `inject_snippets` succeeds
and returns the skeleton with every (greedy, non-overlapping) occurrence of
the sentinel replaced by the aggregated snippets: the skeleton splits into
at least two sentinel-free parts joined by the sentinel, and the output is
the same parts joined by the aggregated content; the spec's concrete example
evaluates as stated. -/
theorem claim_C5_inject_replaces_all (skeleton rendered : String) :
    ((∃ a b : String, skeleton = a ++ PLACEHOLDER_MARKER ++ b) →
      ∃ parts : List (List Char), 2 ≤ parts.length ∧
        (∀ p ∈ parts, containsSub PLACEHOLDER_MARKER.data p = false) ∧
        skeleton.data = joinSep PLACEHOLDER_MARKER.data parts ∧
        inject_snippets skeleton rendered =
          Except.ok (String.mk (joinSep rendered.data parts))) ∧
    inject_snippets "<a>--- INSERT SNIPPETS HERE ---</a>" "<p>Hello</p>" =
      Except.ok "<a><p>Hello</p></a>" := by
  constructor
  · rintro ⟨a, b, rfl⟩
    have hne : PLACEHOLDER_MARKER.data ≠ [] := by decide
    have hc : containsSub PLACEHOLDER_MARKER.data
        (a ++ PLACEHOLDER_MARKER ++ b).data = true :=
      (containsSub_iff _ _ hne).mpr ⟨a.data, b.data, by simp [String.data_append]⟩
    obtain ⟨h1, h2, h3, h4, h5⟩ :=
      pySplit_spec PLACEHOLDER_MARKER.data rendered.data
        (a ++ PLACEHOLDER_MARKER ++ b).data hne
    refine ⟨pySplit PLACEHOLDER_MARKER.data (a ++ PLACEHOLDER_MARKER ++ b).data,
      h5 hc, h4, h1.symm, ?_⟩
    unfold inject_snippets
    rw [if_pos hc, h2]
  · rfl

/-- Witness for C5: a concrete skeleton with one sentinel occurrence splits
into two sentinel-free parts and is assembled by joining them with the
rendered content. -/
theorem claim_C5_inject_replaces_all_witness :
    ∃ parts : List (List Char), 2 ≤ parts.length ∧
      (∀ p ∈ parts, containsSub PLACEHOLDER_MARKER.data p = false) ∧
      ("x--- INSERT SNIPPETS HERE ---y" : String).data =
        joinSep PLACEHOLDER_MARKER.data parts ∧
      inject_snippets "x--- INSERT SNIPPETS HERE ---y" "R" =
        Except.ok (String.mk (joinSep ("R" : String).data parts)) :=
  (claim_C5_inject_replaces_all "x--- INSERT SNIPPETS HERE ---y" "R").1
    ⟨"x", "y", by decide⟩

/-- C9: sentinel replacement is single-pass: content injected for the
sentinel is copied verbatim and never replaced itself, so when the skeleton
is exactly the sentinel the output is exactly the aggregated content — which
may still contain the sentinel. -/
theorem claim_C9_injected_marker_not_rescanned :
    (∀ rendered : String,
      inject_snippets PLACEHOLDER_MARKER rendered = Except.ok rendered) ∧
    inject_snippets PLACEHOLDER_MARKER PLACEHOLDER_MARKER =
      Except.ok PLACEHOLDER_MARKER ∧
    containsSub PLACEHOLDER_MARKER.data PLACEHOLDER_MARKER.data = true := by
  have hall : ∀ rendered : String,
      inject_snippets PLACEHOLDER_MARKER rendered = Except.ok rendered := by
    intro rendered
    unfold inject_snippets
    rw [if_pos (show containsSub PLACEHOLDER_MARKER.data PLACEHOLDER_MARKER.data = true
        by decide),
      pyReplace_self _ _ (by decide), string_mk_data]
  exact ⟨hall, hall PLACEHOLDER_MARKER, by decide⟩

/-- Connection configuration for PostgreSQL (the `DBConfig` dataclass). -/
structure DBConfig where
  host : String
  port : Int
  dbname : String
  user : String
  password : String
deriving DecidableEq

/-- The five `DB_*` environment variables read by `load_db_config`; `none`
models an unset variable. -/
structure Env where
  db_host : Option String
  db_port : Option String
  db_name : Option String
  db_user : Option String
  db_password : Option String
deriving DecidableEq

/-- The environment variable (if set) backing a configuration key, per the
`env_mapping` table of `load_db_config`. -/
def envVal (env : Env) (k : String) : Option String :=
  if k = "host" then env.db_host
  else if k = "port" then env.db_port
  else if k = "dbname" then env.db_name
  else if k = "user" then env.db_user
  else if k = "password" then env.db_password
  else none

/-- Lookup in the file-based `[postgresql]` section, modelled as an
association list of its entries. -/
def lookupStr : List (String × String) → String → Option String
  | [], _ => none
  | (k, v) :: rest, key => if k = key then some v else lookupStr rest key

/-- The `config_values` dictionary after loading the file section and
overwriting with any set environment variable: the environment wins, the
file value is used otherwise. -/
def mergedConfig (file : List (String × String)) (env : Env) (k : String) :
    Option String :=
  match envVal env k with
  | some v => some v
  | none => lookupStr file k

/-- The five required configuration keys, in the order the code checks them. -/
def REQUIRED_KEYS : List String := ["host", "port", "dbname", "user", "password"]

/-- Lexicographic code-point comparison of character lists (the order
Python uses to compare strings). -/
def listLe : List Char → List Char → Bool
  | [], _ => true
  | _ :: _, [] => false
  | c :: cs, d :: ds =>
    if c.toNat < d.toNat then true
    else if d.toNat < c.toNat then false
    else listLe cs ds

/-- Lexicographic string comparison over the character data. -/
def strLe (s t : String) : Bool :=
  listLe s.data t.data

/-- Insert a string into a sorted list (lexicographic order). -/
def insertSorted (s : String) : List String → List String
  | [] => [s]
  | t :: ts => if strLe s t then s :: t :: ts else t :: insertSorted s ts

/-- Python `sorted` on a list of strings (insertion sort, lexicographic). -/
def sortStrings (l : List String) : List String :=
  l.foldr insertSorted []

/-- Embedding of `load_db_config`: merge the file section with the
environment (environment wins), fail with `configMissing` naming the sorted
missing keys when any of the five is absent, fail with `configInvalid` when
the merged port does not parse as an integer, and otherwise return the
config with the parsed port. -/
def load_db_config (file : List (String × String)) (env : Env) :
    Except GenerationError DBConfig :=
  match mergedConfig file env "host", mergedConfig file env "port",
      mergedConfig file env "dbname", mergedConfig file env "user",
      mergedConfig file env "password" with
  | some h, some p, some d, some u, some pw =>
    match pyIntOfString p with
    | some n => .ok ⟨h, n, d, u, pw⟩
    | none => .error (.configInvalid p)
  | _, _, _, _, _ =>
    .error (.configMissing (sortStrings
      (REQUIRED_KEYS.filter (fun k => (mergedConfig file env k).isNone))))

/-- C7: configuration merges the file section first and the environment on
top (an environment value overrides the file value, the file value is used
when the variable is unset); a missing required key yields `configMissing`
naming the sorted missing keys, a present but non-integer port yields
`configInvalid`, and otherwise the five merged fields are returned with the
parsed integer port. -/
theorem claim_C7_config_loading (file : List (String × String)) (env : Env) :
    (∀ k v, envVal env k = some v → mergedConfig file env k = some v) ∧
    (∀ k, envVal env k = none → mergedConfig file env k = lookupStr file k) ∧
    ((∃ k ∈ REQUIRED_KEYS, mergedConfig file env k = none) →
      load_db_config file env = .error (.configMissing (sortStrings
        (REQUIRED_KEYS.filter (fun k => (mergedConfig file env k).isNone))))) ∧
    (∀ h p d u pw,
      mergedConfig file env "host" = some h →
      mergedConfig file env "port" = some p →
      mergedConfig file env "dbname" = some d →
      mergedConfig file env "user" = some u →
      mergedConfig file env "password" = some pw →
      (pyIntOfString p = none →
        load_db_config file env = .error (.configInvalid p)) ∧
      (∀ n, pyIntOfString p = some n →
        load_db_config file env = .ok ⟨h, n, d, u, pw⟩)) := by
  refine ⟨?_, ?_, ?_, ?_⟩
  · intro k v hv
    unfold mergedConfig
    rw [hv]
  · intro k hv
    unfold mergedConfig
    rw [hv]
  · intro hex
    unfold load_db_config
    rcases hh : mergedConfig file env "host" with _ | h <;>
      rcases hp : mergedConfig file env "port" with _ | p <;>
      rcases hd : mergedConfig file env "dbname" with _ | d <;>
      rcases hu : mergedConfig file env "user" with _ | u <;>
      rcases hw : mergedConfig file env "password" with _ | pw <;>
      simp only [hh, hp, hd, hu, hw]
    exfalso
    obtain ⟨k, hk, hknone⟩ := hex
    simp only [REQUIRED_KEYS, List.mem_cons, List.mem_singleton] at hk
    rcases hk with rfl | rfl | rfl | rfl | rfl | hk
    · rw [hh] at hknone; cases hknone
    · rw [hp] at hknone; cases hknone
    · rw [hd] at hknone; cases hknone
    · rw [hu] at hknone; cases hknone
    · rw [hw] at hknone; cases hknone
    · simp at hk
  · intro h p d u pw hh hp hd hu hw
    constructor
    · intro hparse
      unfold load_db_config
      simp only [hh, hp, hd, hu, hw, hparse]
    · intro n hparse
      unfold load_db_config
      simp only [hh, hp, hd, hu, hw, hparse]

/-- Witness for C7: a set environment variable beats the file value; a
four-key configuration fails naming the missing `port`; a non-numeric port
fails as invalid; a complete configuration yields the five fields with the
integer port. -/
theorem claim_C7_config_loading_witness :
    mergedConfig [("host", "filehost")]
      ⟨some "envhost", none, none, none, none⟩ "host" = some "envhost" ∧
    load_db_config
      [("host", "h"), ("dbname", "db"), ("user", "u"), ("password", "pw")]
      ⟨none, none, none, none, none⟩ =
      .error (.configMissing ["port"]) ∧
    load_db_config
      [("host", "h"), ("port", "abc"), ("dbname", "db"), ("user", "u"),
        ("password", "pw")]
      ⟨none, none, none, none, none⟩ =
      .error (.configInvalid "abc") ∧
    load_db_config
      [("host", "h"), ("dbname", "db"), ("user", "u"), ("password", "pw")]
      ⟨none, some "5432", none, none, none⟩ =
      .ok ⟨"h", 5432, "db", "u", "pw"⟩ := by
  refine ⟨?_, ?_, ?_, ?_⟩
  · exact (claim_C7_config_loading [("host", "filehost")]
      ⟨some "envhost", none, none, none, none⟩).1 "host" "envhost" (by decide)
  · have h := (claim_C7_config_loading
      [("host", "h"), ("dbname", "db"), ("user", "u"), ("password", "pw")]
      ⟨none, none, none, none, none⟩).2.2.1 ⟨"port", by decide, by decide⟩
    rw [h]
    exact congrArg Except.error (congrArg GenerationError.configMissing (by decide))
  · exact ((claim_C7_config_loading
      [("host", "h"), ("port", "abc"), ("dbname", "db"), ("user", "u"),
        ("password", "pw")]
      ⟨none, none, none, none, none⟩).2.2.2 "h" "abc" "db" "u" "pw"
      (by decide) (by decide) (by decide) (by decide) (by decide)).1 (by decide)
  · exact ((claim_C7_config_loading
      [("host", "h"), ("dbname", "db"), ("user", "u"), ("password", "pw")]
      ⟨none, some "5432", none, none, none⟩).2.2.2 "h" "5432" "db" "u" "pw"
      (by decide) (by decide) (by decide) (by decide) (by decide)).2 5432 (by decide)

/-- Default templates directory (repository `templates/`, abstracted to its
name). -/
def DEFAULT_TEMPLATES_DIR : String := "templates"

/-- Default snippet template filename. -/
def DEFAULT_SNIPPET_TEMPLATE_NAME : String := "snippet.html"

/-- The external world of one generation run: the readable files, the
`TEMPLATES_DIR` override, the database answers for the page and its
snippets (in `ORDER BY snippet_id` order, as delivered by the query), and
the configuration sources.  The connection itself is assumed to open; its
establishment is outside this model. -/
structure World where
  fs : String → Option String
  templatesDirEnv : Option String
  dbPage : Option Record
  dbSnippets : List Record
  configFile : List (String × String)
  dbEnv : Env

/-- Embedding of `resolve_templates_dir`: the `TEMPLATES_DIR` override or
the default. -/
def resolve_templates_dir (w : World) : String :=
  w.templatesDirEnv.getD DEFAULT_TEMPLATES_DIR

/-- Path join (`dir / name`). -/
def joinPath (dir name : String) : String :=
  dir ++ "/" ++ name

/-- Embedding of `load_file`: the file's content, or the template-not-found
error when the path does not exist. -/
def load_file (fs : String → Option String) (path : String) :
    Except GenerationError String :=
  match fs path with
  | some content => .ok content
  | none => .error (.templateNotFound path)

/-- POSIX absolute-path test used by `Path.is_absolute`: the path begins
with a slash. -/
def isAbsolutePath (p : String) : Bool :=
  match p.data with
  | '/' :: _ => true
  | _ => false

/-- Embedding of `resolve_snippet_template_path`: keep an absolute or
existing path as is, otherwise resolve it under the templates directory. -/
def resolve_snippet_template_path (w : World) (snippet_template templates_dir : String) :
    String :=
  if isAbsolutePath snippet_template || (w.fs snippet_template).isSome then
    snippet_template
  else joinPath templates_dir snippet_template

/-- Embedding of `fetch_page`: the single row for the page name, or the
page-not-found error when the query returns no row. -/
def fetch_page (w : World) (page_name : String) : Except GenerationError Record :=
  match w.dbPage with
  | none => .error (.pageNotFound page_name)
  | some r => .ok r

/-- The `page.get("page_id")` check of `generate_page`: Python's `dict.get`
yields `None` both when the column is absent and when it is SQL NULL, and
either way the run fails with the missing-page-id error. -/
def getPageId (page : Record) : Except GenerationError Value :=
  match page.get "page_id" with
  | none => .error .missingPageId
  | some Value.null => .error .missingPageId
  | some v => .ok v

/-- The effect-free part of `generate_page`: run every step up to and
including assembly and return the planned write (output path and content);
any failing step short-circuits with its error. -/
def run_generate (w : World) (page_name : String)
    (snippet_template_name output_path : Option String) :
    Except GenerationError (String × String) := do
  let _config ← load_db_config w.configFile w.dbEnv
  let templates_dir := resolve_templates_dir w
  let skeleton_path := joinPath templates_dir (page_name ++ ".skel")
  let sti := snippet_template_name.getD DEFAULT_SNIPPET_TEMPLATE_NAME
  let snippet_template_path := resolve_snippet_template_path w sti templates_dir
  let skeleton ← load_file w.fs skeleton_path
  let snippet_template ← load_file w.fs snippet_template_path
  let page ← fetch_page w page_name
  let _page_id ← getPageId page
  let rendered_snippets := render_snippets snippet_template w.dbSnippets
  let final_content ← inject_snippets skeleton rendered_snippets
  let output := output_path.getD page_name
  return (output, final_content)

/-- Embedding of `generate_page` with its persistence step made explicit:
the result and the list of file writes performed; the single write happens
last, only when every earlier step succeeded. -/
def generate_page (w : World) (page_name : String)
    (snippet_template_name output_path : Option String) :
    Except GenerationError String × List (String × String) :=
  match run_generate w page_name snippet_template_name output_path with
  | .ok (output, content) => (.ok output, [(output, content)])
  | .error e => (.error e, [])

/-- C8: generation is atomic in its output: when any step fails the run
surfaces that single `GenerationError` and performs no write, and on success
exactly one write is performed, of the assembled content at the returned
output path. -/
theorem claim_C8_atomic_output (w : World) (pn : String) (stn op : Option String) :
    (∀ e, (generate_page w pn stn op).1 = .error e →
      (generate_page w pn stn op).2 = []) ∧
    (∀ out, (generate_page w pn stn op).1 = .ok out →
      ∃ content, (generate_page w pn stn op).2 = [(out, content)] ∧
        run_generate w pn stn op = .ok (out, content)) := by
  unfold generate_page
  rcases hr : run_generate w pn stn op with e | ⟨output, content⟩
  · refine ⟨fun e2 _ => rfl, fun out hout => ?_⟩
    cases hout
  · refine ⟨fun e2 he => ?_, fun out hout => ?_⟩
    · cases he
    · injection hout with hout
      subst hout
      exact ⟨content, rfl, rfl⟩

/-- Witness for C8: with no configuration at all the run fails (with the
missing-configuration error) and the write list is empty. -/
theorem claim_C8_atomic_output_witness :
    (generate_page
      ⟨fun _ => none, none, none, [], [], ⟨none, none, none, none, none⟩⟩
      "turkey.html" none none).2 = [] :=
  (claim_C8_atomic_output
    ⟨fun _ => none, none, none, [], [], ⟨none, none, none, none, none⟩⟩
    "turkey.html" none none).1
    (.configMissing ["dbname", "host", "password", "port", "user"]) (by rfl)

theorem inject_snippets_error (skeleton rendered : String) (e : GenerationError)
    (h : inject_snippets skeleton rendered = .error e) : e = .missingMarker := by
  unfold inject_snippets at h
  by_cases hc : containsSub PLACEHOLDER_MARKER.data skeleton.data = true
  · rw [if_pos hc] at h
    cases h
  · rw [if_neg hc] at h
    injection h with h
    exact h.symm

/-- C10: the rendering pipeline is total: once configuration, template
loading and data loading have succeeded, the run is exactly the assembly of
the rendered aggregate (rendering and the activity check never fail), so the
missing-marker error is the only remaining failure point. -/
theorem claim_C10_render_pipeline_total (w : World) (pn : String)
    (stn op : Option String) (config : DBConfig) (skeleton tmpl : String)
    (page : Record) (pid : Value)
    (hconfig : load_db_config w.configFile w.dbEnv = .ok config)
    (hskel : load_file w.fs
      (joinPath (resolve_templates_dir w) (pn ++ ".skel")) = .ok skeleton)
    (htmpl : load_file w.fs
      (resolve_snippet_template_path w (stn.getD DEFAULT_SNIPPET_TEMPLATE_NAME)
        (resolve_templates_dir w)) = .ok tmpl)
    (hpage : fetch_page w pn = .ok page)
    (hpid : getPageId page = .ok pid) :
    run_generate w pn stn op =
      Except.map (fun c => (op.getD pn, c))
        (inject_snippets skeleton (render_snippets tmpl w.dbSnippets)) ∧
    (∀ e, run_generate w pn stn op = .error e → e = .missingMarker) := by
  have hrun : run_generate w pn stn op =
      Except.map (fun c => (op.getD pn, c))
        (inject_snippets skeleton (render_snippets tmpl w.dbSnippets)) := by
    unfold run_generate
    rw [hconfig]
    show (load_file w.fs (joinPath (resolve_templates_dir w) (pn ++ ".skel"))).bind _ =
      _
    rw [hskel]
    show (load_file w.fs (resolve_snippet_template_path w
      (stn.getD DEFAULT_SNIPPET_TEMPLATE_NAME) (resolve_templates_dir w))).bind _ = _
    rw [htmpl]
    show (fetch_page w pn).bind _ = _
    rw [hpage]
    show (getPageId page).bind _ = _
    rw [hpid]
    show (inject_snippets skeleton (render_snippets tmpl w.dbSnippets)).bind _ = _
    rcases hi : inject_snippets skeleton (render_snippets tmpl w.dbSnippets) with e | c
    · rfl
    · rfl
  refine ⟨hrun, fun e he => ?_⟩
  rw [hrun] at he
  rcases hi : inject_snippets skeleton (render_snippets tmpl w.dbSnippets) with e2 | c
  · rw [hi] at he
    injection he with he
    exact he ▸ inject_snippets_error _ _ e2 hi
  · rw [hi] at he
    cases he

/-- Witness for C10: a complete configuration, both templates present, a
page row with a page id, but a skeleton lacking the sentinel: the run fails
with exactly the missing-marker error. -/
theorem claim_C10_render_pipeline_total_witness :
    run_generate
      ⟨fun s => if s = "templates/p.skel" then some "hello"
        else if s = "snippet.html" then some "T" else none,
       none, some [("page_id", Value.i 7)], [],
       [("host", "h"), ("port", "1"), ("dbname", "db"), ("user", "u"),
        ("password", "pw")],
       ⟨none, none, none, none, none⟩⟩
      "p" none none = .error .missingMarker :=
  ((claim_C10_render_pipeline_total
    ⟨fun s => if s = "templates/p.skel" then some "hello"
      else if s = "snippet.html" then some "T" else none,
     none, some [("page_id", Value.i 7)], [],
     [("host", "h"), ("port", "1"), ("dbname", "db"), ("user", "u"),
      ("password", "pw")],
     ⟨none, none, none, none, none⟩⟩
    "p" none none ⟨"h", 1, "db", "u", "pw"⟩ "hello" "T"
    [("page_id", Value.i 7)] (Value.i 7)
    (by rfl) (by rfl) (by rfl) (by rfl) (by rfl)).1).trans (by rfl)

end Generator
